import Mathlib

/-!
Shallow embedding of the libdns/linode DNS provider adapter.

The repository is a thin adapter translating the generic libdns record
interface (GetRecords, AppendRecords, SetRecords, DeleteRecords) into calls
against the Linode API via the linodego client.  We embed:

  - Go strings as lists of characters (`GoString`);
  - the Go standard-library helpers the code uses (strings.TrimSuffix,
    strings.Trim with cutset ".", strconv.Atoi, strconv.Itoa);
  - the libdns v0.2.1 record type and name helpers (an outside dependency)
    (RelativeName, AbsoluteName) that the adapter calls;
  - the linodego record shapes (DomainRecord, create and update options);
  - the translation functions of client.go (trimTrailingDot,
    getDomainIDByZone in both its paginated and its filtered variant,
    createDomainRecord, updateDomainRecord, deleteDomainRecord,
    createOrUpdateDomainRecord, convertToLibdns, mergeWithExistingLibdns);
  - the four public operations of provider.go, with the remote API given
    by an oracle and with an explicit trace of the record-level remote
    calls each operation issues.

time.Duration is embedded as an integer number of nanoseconds; the Go
expression int(d.Seconds()) truncates the duration to a whole number of
seconds toward zero, which over the integers is truncating division by
10^9 (`goDurationSeconds`).
-/

namespace LinodeSpec

/-- Go strings, embedded as lists of characters. -/
abbrev GoString := List Char

/-- Helper turning a Lean string literal into an embedded Go string. -/
def gs (s : String) : GoString := s.toList

/-- Go strings.HasSuffix: s ends with the given suffix. -/
def hasSuffixGo (s suffix : GoString) : Bool :=
  decide (suffix.length ≤ s.length) &&
    decide (s.drop (s.length - suffix.length) = suffix)

/-- Go strings.TrimSuffix: remove one copy of the suffix from the end of s,
if present. -/
def trimSuffixGo (s suffix : GoString) : GoString :=
  if hasSuffixGo s suffix then s.take (s.length - suffix.length) else s

/-- Go strings.TrimLeft with cutset ".": drop every leading dot. -/
def trimLeftDots (s : GoString) : GoString :=
  s.dropWhile (fun c => c == '.')

/-- Go strings.TrimRight with cutset ".": drop every trailing dot. -/
def trimRightDots (s : GoString) : GoString :=
  (trimLeftDots s.reverse).reverse

/-- Go strings.Trim with cutset ".": drop every leading and trailing dot. -/
def trimDots (s : GoString) : GoString :=
  trimRightDots (trimLeftDots s)

/-- Value of a decimal digit list, most significant first. -/
def digitsVal (ds : List Char) : Nat :=
  ds.foldl (fun acc c => 10 * acc + (c.toNat - ('0').toNat)) 0

/-- Go strconv.Atoi: an optional sign followed by one or more decimal
digits, with the value required to fit in a 64-bit signed integer.
Returns none exactly when Go returns a non-nil error. -/
def Atoi (s : GoString) : Option Int :=
  let signAndDigits : Int × List Char :=
    match s with
    | '+' :: rest => (1, rest)
    | '-' :: rest => (-1, rest)
    | _ => (1, s)
  let sign := signAndDigits.1
  let digits := signAndDigits.2
  if digits = [] then none
  else if digits.all Char.isDigit then
    let v : Int := sign * (digitsVal digits : Int)
    if -(2 ^ 63) ≤ v ∧ v < 2 ^ 63 then some v else none
  else none

/-- Go strconv.Itoa: decimal string form of an integer. -/
def Itoa (n : Int) : GoString :=
  (toString n).toList

/-! ## The libdns v0.2.1 types and helpers (an outside dependency) -/

/-- Nanoseconds per second: time.Second as a time.Duration count. -/
def nsPerSecond : Int := 1000000000

/-- libdns v0.2.1 Record.  Fields: provider-assigned ID (empty string means
not yet created), Type, Name (relative to the zone), Value, TTL (a
time.Duration, embedded as nanoseconds), and Priority (used by MX, SRV and
URI records). -/
structure Record where
  id : GoString
  type : GoString
  name : GoString
  value : GoString
  ttl : Int
  priority : Int
deriving Repr, DecidableEq

/-- The zero value of the libdns Record struct. -/
def emptyRecord : Record :=
  { id := [], type := [], name := [], value := [], ttl := 0, priority := 0 }

/-- libdns v0.2.1 RelativeName: TrimSuffix(TrimSuffix(fqdn, zone), "."). -/
def RelativeName (fqdn zone : GoString) : GoString :=
  trimSuffixGo (trimSuffixGo fqdn zone) (gs ".")

/-- libdns v0.2.1 AbsoluteName.  With an empty zone argument (the only way
this adapter calls it) it reduces to strings.Trim(name, "."). -/
def AbsoluteName (name zone : GoString) : GoString :=
  if zone = [] then trimDots name
  else if name = [] ∨ name = gs "@" then zone
  else if hasSuffixGo name (gs ".") then name ++ zone
  else name ++ gs "." ++ zone

/-! ## The linodego record shapes used by the adapter -/

/-- A linodego Domain, as far as this adapter reads it: numeric ID and
domain name. -/
structure Domain where
  id : Int
  domain : GoString
deriving Repr, DecidableEq

/-- A linodego DomainRecord, as far as this adapter reads it. -/
structure DomainRecord where
  id : Int
  type : GoString
  name : GoString
  target : GoString
  ttlSec : Int
deriving Repr, DecidableEq

/-- linodego DomainRecordCreateOptions, restricted to the fields the
adapter sets.  Note the shape carries no record ID at all. -/
structure DomainRecordCreateOptions where
  type : GoString
  name : GoString
  target : GoString
  ttlSec : Int
deriving Repr, DecidableEq

/-- linodego DomainRecordUpdateOptions, restricted to the fields the
adapter sets. -/
structure DomainRecordUpdateOptions where
  type : GoString
  name : GoString
  target : GoString
  ttlSec : Int
deriving Repr, DecidableEq

/-! ## Translation functions of client.go -/

/-- Go int(d.Seconds()) for a time.Duration d held in nanoseconds: the
whole-second count with any sub-second component truncated toward zero. -/
def goDurationSeconds (d : Int) : Int :=
  d.tdiv nsPerSecond

/-- client.go trimTrailingDot: trims any trailing "." from fqdn. -/
def trimTrailingDot (fqdn : GoString) : GoString :=
  trimSuffixGo fqdn (gs ".")

/-- getDomainIDByZone, paginated variant (client.go, first version): list
all domains page by page and linearly scan for the first whose name equals
the zone with any trailing dot stripped; none models the
could-not-find-the-domain error.  Pagination is flattened: the oracle list
holds every domain of every page in order. -/
def getDomainIDByZonePaginated (zone : GoString) (domains : List Domain) :
    Option Int :=
  match domains.find? (fun d => decide (d.domain = trimTrailingDot zone)) with
  | some d => some d.id
  | none => none

/-- getDomainIDByZone, filtered variant (client.go, second version): issue
one query filtered on domain == AbsoluteName(zone, ""); the remote returns
every domain whose name equals that key, in table order, and the code takes
the first or fails when the result is empty. -/
def getDomainIDByZoneFiltered (zone : GoString) (domains : List Domain) :
    Option Int :=
  match domains.filter (fun d => decide (d.domain = AbsoluteName zone [])) with
  | [] => none
  | d :: _ => some d.id

/-- The DomainRecordCreateOptions built by createDomainRecord from an input
record: Type passed through, Name made relative to the zone, Target from
Value, TTLSec the truncated whole-second TTL.  No ID is ever set. -/
def createOpts (zone : GoString) (record : Record) :
    DomainRecordCreateOptions :=
  { type := record.type
    name := RelativeName record.name zone
    target := record.value
    ttlSec := goDurationSeconds record.ttl }

/-- The DomainRecordUpdateOptions built by updateDomainRecord from an input
record; same field mapping as createOpts. -/
def updateOpts (zone : GoString) (record : Record) :
    DomainRecordUpdateOptions :=
  { type := record.type
    name := RelativeName record.name zone
    target := record.value
    ttlSec := goDurationSeconds record.ttl }

/-- client.go mergeWithExistingLibdns: overwrite the existing generic
record (the zero record when nil is passed) with the five fields decoded
from the linodego record: ID as decimal string, Type, Name relative to the
zone, Value from Target, TTL as TTLSec whole seconds. -/
def mergeWithExistingLibdns (zone : GoString) (existingRecord : Option Record)
    (linodeRecord : DomainRecord) : Record :=
  let base := existingRecord.getD emptyRecord
  { base with
    id := Itoa linodeRecord.id
    type := linodeRecord.type
    name := RelativeName linodeRecord.name zone
    value := linodeRecord.target
    ttl := linodeRecord.ttlSec * nsPerSecond }

/-- client.go convertToLibdns: mergeWithExistingLibdns with a nil existing
record. -/
def convertToLibdns (zone : GoString) (linodeRecord : DomainRecord) :
    Record :=
  mergeWithExistingLibdns zone none linodeRecord

/-! ## The public operations of provider.go

The remote API is an oracle: the domain table, plus per-record-index
responses for create, update and delete calls and one response for the
record listing call.  Each operation also returns the trace of the
record-level remote calls it issued, so that fail-fast and
no-call-after-failure properties are statable. -/

/-- A record-level remote call issued by the adapter. -/
inductive RemoteCall where
  | listRecords (domainID : Int)
  | create (domainID : Int) (opts : DomainRecordCreateOptions)
  | update (domainID : Int) (recordID : Int) (opts : DomainRecordUpdateOptions)
  | delete (domainID : Int) (recordID : Int)
deriving Repr, DecidableEq

/-- The remote side: the domain table and the outcome of each record-level
call, keyed by the index of the record in the batch. -/
structure Remote where
  domains : List Domain
  createResp : Nat → Except String DomainRecord
  updateResp : Nat → Except String DomainRecord
  deleteResp : Nat → Option String
  listResp : Except String (List DomainRecord)

/-- What a public operation returns: the record list and error of the Go
return values (a Go nil slice is the empty list), plus the trace of
record-level remote calls issued. -/
structure OpResult where
  records : List Record
  err : Option String
  calls : List RemoteCall
deriving Repr, DecidableEq

/-- The error each public operation wraps around a failed domain
resolution (could not find domain ID for zone). -/
def zoneLookupErr : String := "could not find domain ID for zone"

/-- The strconv parse error surfaced when a record ID is not numeric. -/
def invalidRecordIDErr : String := "invalid record ID"

/-- client.go createDomainRecord as one batch step: build the create
options from the input record, issue the create call, and on success merge
the returned linodego record over the input record. -/
def createDomainRecordStep (remote : Remote) (i : Nat) (zone : GoString)
    (domainID : Int) (record : Record) :
    Except String Record × List RemoteCall :=
  let opts := createOpts zone record
  match remote.createResp i with
  | .error e => (.error e, [RemoteCall.create domainID opts])
  | .ok rr =>
      (.ok (mergeWithExistingLibdns zone (some record) rr),
        [RemoteCall.create domainID opts])

/-- client.go updateDomainRecord as one batch step: parse the record ID
first and fail with the invalid-record-ID error, issuing no remote call,
when it is not numeric; otherwise issue the update call by that numeric ID
and on success merge the returned linodego record over the input record. -/
def updateDomainRecordStep (remote : Remote) (i : Nat) (zone : GoString)
    (domainID : Int) (record : Record) :
    Except String Record × List RemoteCall :=
  match Atoi record.id with
  | none => (.error invalidRecordIDErr, [])
  | some recordID =>
      let opts := updateOpts zone record
      match remote.updateResp i with
      | .error e => (.error e, [RemoteCall.update domainID recordID opts])
      | .ok rr =>
          (.ok (mergeWithExistingLibdns zone (some record) rr),
            [RemoteCall.update domainID recordID opts])

/-- client.go createOrUpdateDomainRecord: create when the record ID is the
empty string, update otherwise. -/
def createOrUpdateDomainRecord (remote : Remote) (i : Nat) (zone : GoString)
    (domainID : Int) (record : Record) :
    Except String Record × List RemoteCall :=
  if record.id = [] then
    createDomainRecordStep remote i zone domainID record
  else
    updateDomainRecordStep remote i zone domainID record

/-- client.go deleteDomainRecord as one batch step: parse the record ID
first and fail with the invalid-record-ID error, issuing no remote call,
when it is not numeric; otherwise issue the delete call.  On success the
surrounding loop appends the input record itself. -/
def deleteDomainRecordStep (remote : Remote) (i : Nat) (domainID : Int)
    (record : Record) : Except String Record × List RemoteCall :=
  match Atoi record.id with
  | none => (.error invalidRecordIDErr, [])
  | some recordID =>
      match remote.deleteResp i with
      | some e => (.error e, [RemoteCall.delete domainID recordID])
      | none => (.ok record, [RemoteCall.delete domainID recordID])

/-- The per-record loop shared by AppendRecords, SetRecords and
DeleteRecords: process the records in order, one remote call bundle per
record; on the first failing step return the Go nil slice together with
that error, issuing no call for any later record. -/
def batchLoop (step : Nat → Record → Except String Record × List RemoteCall) :
    Nat → List Record → List Record × Option String × List RemoteCall
  | _, [] => ([], none, [])
  | i, record :: rest =>
      match step i record with
      | (.error e, calls) => ([], some e, calls)
      | (.ok out, calls) =>
          match batchLoop step (i + 1) rest with
          | (outs, none, calls2) => (out :: outs, none, calls ++ calls2)
          | (_, some e, calls2) => ([], some e, calls ++ calls2)

/-- The remote calls issued for a given list of records when every step up
to the end of the list is reached: one call bundle per record, in order. -/
def callsFor (step : Nat → Record → Except String Record × List RemoteCall) :
    Nat → List Record → List RemoteCall
  | _, [] => []
  | i, record :: rest => (step i record).2 ++ callsFor step (i + 1) rest

/-- provider.go GetRecords: resolve the domain ID (failing with the
zone-lookup error and issuing no record-level call when the zone has no
matching domain), then list the remote records of the domain and translate
each through convertToLibdns. -/
def GetRecords (remote : Remote) (zone : GoString) : OpResult :=
  match getDomainIDByZoneFiltered zone remote.domains with
  | none => { records := [], err := some zoneLookupErr, calls := [] }
  | some domainID =>
      match remote.listResp with
      | .error e =>
          { records := [], err := some e,
            calls := [RemoteCall.listRecords domainID] }
      | .ok rrs =>
          { records := rrs.map (convertToLibdns zone), err := none,
            calls := [RemoteCall.listRecords domainID] }

/-- provider.go AppendRecords: resolve the domain ID, then create each
input record in order, fail-fast, returning the merged created records. -/
def AppendRecords (remote : Remote) (zone : GoString)
    (records : List Record) : OpResult :=
  match getDomainIDByZoneFiltered zone remote.domains with
  | none => { records := [], err := some zoneLookupErr, calls := [] }
  | some domainID =>
      match batchLoop (fun i r => createDomainRecordStep remote i zone domainID r)
          0 records with
      | (outs, none, calls) => { records := outs, err := none, calls := calls }
      | (_, some e, calls) => { records := [], err := some e, calls := calls }

/-- provider.go SetRecords: resolve the domain ID, then for each input
record create when its ID is empty and update otherwise, fail-fast. -/
def SetRecords (remote : Remote) (zone : GoString)
    (records : List Record) : OpResult :=
  match getDomainIDByZoneFiltered zone remote.domains with
  | none => { records := [], err := some zoneLookupErr, calls := [] }
  | some domainID =>
      match batchLoop (fun i r => createOrUpdateDomainRecord remote i zone domainID r)
          0 records with
      | (outs, none, calls) => { records := outs, err := none, calls := calls }
      | (_, some e, calls) => { records := [], err := some e, calls := calls }

/-- provider.go DeleteRecords, as written in provider.go: the accumulator
is built by make([]libdns.Record, len(records)) — len(records) zero-valued
records — and each successfully deleted input record is then appended after
them, so the success return starts with those zero-valued entries, followed by the inputs. -/
def DeleteRecords (remote : Remote) (zone : GoString)
    (records : List Record) : OpResult :=
  match getDomainIDByZoneFiltered zone remote.domains with
  | none => { records := [], err := some zoneLookupErr, calls := [] }
  | some domainID =>
      match batchLoop (fun i r => deleteDomainRecordStep remote i domainID r)
          0 records with
      | (outs, none, calls) =>
          { records := List.replicate records.length emptyRecord ++ outs,
            err := none, calls := calls }
      | (_, some e, calls) => { records := [], err := some e, calls := calls }

/-! ## Helper lemmas -/

theorem gs_dot : gs "." = ['.'] := rfl

theorem hasSuffixGo_append_dot (s : GoString) :
    hasSuffixGo (s ++ ['.']) ['.'] = true := by
  have hlen : (s ++ ['.']).length - (['.'] : GoString).length = s.length := by
    simp
  simp only [hasSuffixGo, hlen, Bool.and_eq_true, decide_eq_true_eq]
  exact ⟨by simp, List.drop_left s ['.']⟩

theorem trimSuffixGo_append_dot (s : GoString) :
    trimSuffixGo (s ++ ['.']) ['.'] = s := by
  have hlen : (s ++ ['.']).length - (['.'] : GoString).length = s.length := by
    simp
  simp only [trimSuffixGo, hasSuffixGo_append_dot, if_true, hlen]
  exact List.take_left s ['.']

theorem trimSuffixGo_of_no_suffix (s suffix : GoString)
    (h : hasSuffixGo s suffix = false) : trimSuffixGo s suffix = s := by
  simp [trimSuffixGo, h]

theorem trimLeftDots_append_dot (s : GoString) :
    trimLeftDots (s ++ ['.']) = trimLeftDots s ++ ['.'] ∨
      (trimLeftDots s = [] ∧ trimLeftDots (s ++ ['.']) = []) := by
  induction s with
  | nil => right; exact ⟨rfl, rfl⟩
  | cons c cs ih =>
      by_cases hc : c = '.'
      · subst hc
        simpa [trimLeftDots, List.dropWhile] using ih
      · left
        have hb : (c == '.') = false := by
          simpa using hc
        simp [trimLeftDots, List.dropWhile, hb]

theorem trimRightDots_append_dot (w : GoString) :
    trimRightDots (w ++ ['.']) = trimRightDots w := by
  simp [trimRightDots, trimLeftDots, List.dropWhile]

theorem trimDots_append_dot (s : GoString) :
    trimDots (s ++ ['.']) = trimDots s := by
  unfold trimDots
  rcases trimLeftDots_append_dot s with h | ⟨h1, h2⟩
  · rw [h, trimRightDots_append_dot]
  · rw [h1, h2]

theorem AbsoluteName_empty_zone (name : GoString) :
    AbsoluteName name [] = trimDots name := by
  simp [AbsoluteName]

/-- The filtered resolver equals a first-match scan for the same key. -/
theorem getDomainIDByZoneFiltered_eq_find (zone : GoString)
    (domains : List Domain) :
    getDomainIDByZoneFiltered zone domains =
      match domains.find? (fun d => decide (d.domain = AbsoluteName zone [])) with
      | some d => some d.id
      | none => none := by
  induction domains with
  | nil => rfl
  | cons d ds ih =>
      by_cases h : d.domain = AbsoluteName zone []
      · simp [getDomainIDByZoneFiltered, List.filter_cons, List.find?_cons, h]
      · unfold getDomainIDByZoneFiltered at ih ⊢
        simp only [List.filter_cons, List.find?_cons, h, decide_False,
          if_false, cond_false]
        exact ih

theorem getDomainIDByZoneFiltered_eq_none (zone : GoString)
    (domains : List Domain)
    (h : ∀ d ∈ domains, d.domain ≠ AbsoluteName zone []) :
    getDomainIDByZoneFiltered zone domains = none := by
  have hfil : domains.filter
      (fun d => decide (d.domain = AbsoluteName zone [])) = [] := by
    rw [List.filter_eq_nil_iff]
    intro d hd
    simpa using h d hd
  unfold getDomainIDByZoneFiltered
  rw [hfil]

/-- Bool success test of a batch step result. -/
def stepOk (x : Except String Record × List RemoteCall) : Bool :=
  match x.1 with
  | .ok _ => true
  | .error _ => false

/-- Fail-fast shape of the shared per-record loop: when every step before
position k succeeds and the step at position k fails, the loop returns the
nil slice, that error, and exactly the calls of the first k + 1 records. -/
theorem batchLoop_failFast
    (step : Nat → Record → Except String Record × List RemoteCall)
    (records : List Record) (k start : Nat) (e : String)
    (hk : k < records.length)
    (hsucc : ∀ i, i < k →
      stepOk (step (start + i) (records.getD i emptyRecord)) = true)
    (hfail : (step (start + k) (records.getD k emptyRecord)).1 =
      Except.error e) :
    batchLoop step start records =
      ([], some e, callsFor step start (records.take (k + 1))) := by
  induction records generalizing k start with
  | nil => exact absurd hk (by simp)
  | cons r rs ih =>
      rcases hs : step start r with ⟨res, calls⟩
      cases k with
      | zero =>
          have h0 : res = Except.error e := by
            have := hfail
            simp only [Nat.add_zero, List.getD_cons_zero] at this
            rw [hs] at this
            exact this
          subst h0
          simp [batchLoop, callsFor, hs]
      | succ k' =>
          have hok := hsucc 0 (Nat.succ_pos k')
          simp only [Nat.add_zero, List.getD_cons_zero] at hok
          rw [hs] at hok
          cases res with
          | error e' => simp [stepOk] at hok
          | ok out =>
              have hk' : k' < rs.length := by
                simpa using Nat.lt_of_succ_lt_succ (by simpa using hk)
              have hsucc' : ∀ i, i < k' →
                  stepOk (step (start + 1 + i) (rs.getD i emptyRecord)) = true := by
                intro i hi
                have := hsucc (i + 1) (Nat.succ_lt_succ hi)
                have harith : start + (i + 1) = start + 1 + i := by omega
                simpa [harith] using this
              have hfail' : (step (start + 1 + k') (rs.getD k' emptyRecord)).1 =
                  Except.error e := by
                have harith : start + (k' + 1) = start + 1 + k' := by omega
                simpa [harith] using hfail
              have hrec := ih k' (start + 1) hk' hsucc' hfail'
              simp [batchLoop, callsFor, hs, hrec]

/-! ## Concrete fixtures used by witnesses and counterexamples -/

/-- A concrete input record carrying the numeric ID "7". -/
def sampleRecord : Record :=
  { id := gs "7", type := gs "A", name := gs "www",
    value := gs "1.2.3.4", ttl := 300 * nsPerSecond, priority := 0 }

/-- A concrete linodego record as a remote response payload. -/
def sampleDomainRecord : DomainRecord :=
  { id := 11, type := gs "A", name := gs "www",
    target := gs "1.2.3.4", ttlSec := 300 }

/-- A remote whose table holds example.com as domain 1 and whose
record-level calls all succeed. -/
def remoteAllOk : Remote :=
  { domains := [{ id := 1, domain := gs "example.com" }]
    createResp := fun _ => Except.ok sampleDomainRecord
    updateResp := fun _ => Except.ok sampleDomainRecord
    deleteResp := fun _ => none
    listResp := Except.ok [] }

/-- A remote whose table holds example.com as domain 1 and whose
record-level calls all fail. -/
def remoteAllFail : Remote :=
  { domains := [{ id := 1, domain := gs "example.com" }]
    createResp := fun _ => Except.error "boom"
    updateResp := fun _ => Except.error "boom"
    deleteResp := fun _ => some "boom"
    listResp := Except.error "boom" }

/-! ## Claim theorems -/

/-- Claim C1 (code bug): with the zone resolving to domain 1 and the one
delete call succeeding, DeleteRecords of provider.go does not return
exactly the input records: make with length len(records) pre-fills the
result slice with len(records) zero-valued records and the deleted inputs
are appended after them, so a single input record comes back as a
two-element list headed by the zero-valued record, contradicting the doc
comment of the function and the sibling version of the repository. -/
theorem deleteRecords_zero_valued_padding :
    DeleteRecords remoteAllOk (gs "example.com") [sampleRecord] =
      { records := [emptyRecord, sampleRecord], err := none,
        calls := [RemoteCall.delete 1 7] } ∧
    [emptyRecord, sampleRecord] ≠ [sampleRecord] := ⟨rfl, by decide⟩

/-- Claim C2, counterexample: on the zone name "a.." over a table holding
the domain named "a." with ID 5, the paginated scan (key: one trailing dot
stripped) returns domain 5 while the filtered query (key: every leading
and trailing dot stripped) fails with domain-not-found, so the two
strategies are not equivalent for every zone name and every table. -/
theorem domainResolution_strategies_differ :
    getDomainIDByZonePaginated (gs "a..") [{ id := 5, domain := gs "a." }] =
      some 5 ∧
    getDomainIDByZoneFiltered (gs "a..") [{ id := 5, domain := gs "a." }] =
      none := by
  decide

/-- Claim C2 (amended): the two domain-resolution strategies compute the
same result — same domain ID or both domain-not-found — for every remote
domain table and every zone name on which stripping one trailing dot and
stripping all leading and trailing dots coincide, which covers every
well-formed zone name. -/
theorem domainResolution_equiv_of_trim_agree (zone : GoString)
    (h : trimTrailingDot zone = trimDots zone) (domains : List Domain) :
    getDomainIDByZonePaginated zone domains =
      getDomainIDByZoneFiltered zone domains := by
  rw [getDomainIDByZoneFiltered_eq_find]
  unfold getDomainIDByZonePaginated
  rw [AbsoluteName_empty_zone, ← h]

/-- Witness for the amended claim C2 at the zone "example.com." over a
one-domain table. -/
theorem domainResolution_equiv_witness :
    getDomainIDByZonePaginated (gs "example.com.")
        [{ id := 9, domain := gs "example.com" }] =
      getDomainIDByZoneFiltered (gs "example.com.")
        [{ id := 9, domain := gs "example.com" }] :=
  domainResolution_equiv_of_trim_agree (gs "example.com.") (by decide) _

/-- Claim C3: for a zone name not ending in a dot, appending a trailing
dot leaves the lookup key of both resolution strategies unchanged, so on
every domain table each strategy returns the same domain ID for both
spellings or fails for both. -/
theorem domainResolution_trailingDot_insensitive (zone : GoString)
    (h : hasSuffixGo zone ['.'] = false) (domains : List Domain) :
    getDomainIDByZonePaginated (zone ++ ['.']) domains =
      getDomainIDByZonePaginated zone domains ∧
    getDomainIDByZoneFiltered (zone ++ ['.']) domains =
      getDomainIDByZoneFiltered zone domains := by
  have hkey1 : trimTrailingDot (zone ++ ['.']) = trimTrailingDot zone := by
    unfold trimTrailingDot
    rw [gs_dot, trimSuffixGo_append_dot, trimSuffixGo_of_no_suffix zone ['.'] h]
  have hkey2 : AbsoluteName (zone ++ ['.']) [] = AbsoluteName zone [] := by
    rw [AbsoluteName_empty_zone, AbsoluteName_empty_zone, trimDots_append_dot]
  constructor
  · unfold getDomainIDByZonePaginated
    rw [hkey1]
  · rw [getDomainIDByZoneFiltered_eq_find, getDomainIDByZoneFiltered_eq_find,
      hkey2]

/-- Witness for claim C3 at the zone "example.com" over a one-domain
table. -/
theorem domainResolution_trailingDot_witness :
    getDomainIDByZonePaginated (gs "example.com" ++ ['.'])
        [{ id := 9, domain := gs "example.com" }] =
      getDomainIDByZonePaginated (gs "example.com")
        [{ id := 9, domain := gs "example.com" }] ∧
    getDomainIDByZoneFiltered (gs "example.com" ++ ['.'])
        [{ id := 9, domain := gs "example.com" }] =
      getDomainIDByZoneFiltered (gs "example.com")
        [{ id := 9, domain := gs "example.com" }] :=
  domainResolution_trailingDot_insensitive (gs "example.com") (by decide) _

/-- Claim C4: the per-record dispatch of SetRecords (the
createOrUpdateDomainRecord step its loop runs).  An empty record ID issues
a create call; a non-empty ID parsed by Atoi as n issues an update call by
n; a non-empty ID that Atoi rejects fails with the invalid-record-ID error
and issues no remote call at all for that record. -/
theorem setRecords_id_dispatch (remote : Remote) (i : Nat) (zone : GoString)
    (domainID : Int) (record : Record) :
    (record.id = [] →
      (createOrUpdateDomainRecord remote i zone domainID record).2 =
        [RemoteCall.create domainID (createOpts zone record)]) ∧
    (∀ n, Atoi record.id = some n →
      (createOrUpdateDomainRecord remote i zone domainID record).2 =
        [RemoteCall.update domainID n (updateOpts zone record)]) ∧
    (record.id ≠ [] → Atoi record.id = none →
      createOrUpdateDomainRecord remote i zone domainID record =
        (Except.error invalidRecordIDErr, [])) := by
  refine ⟨?_, ?_, ?_⟩
  · intro hid
    unfold createOrUpdateDomainRecord createDomainRecordStep
    rw [if_pos hid]
    cases remote.createResp i <;> rfl
  · intro n hn
    have hid : record.id ≠ [] := by
      intro hnil
      rw [hnil] at hn
      exact Option.noConfusion hn
    unfold createOrUpdateDomainRecord updateDomainRecordStep
    rw [if_neg hid, hn]
    cases remote.updateResp i <;> rfl
  · intro hid hn
    unfold createOrUpdateDomainRecord updateDomainRecordStep
    rw [if_neg hid, hn]

/-- Witness for claim C4: the three dispatch cases at concrete records
with IDs "", "7" and "abc". -/
theorem setRecords_id_dispatch_witness :
    (createOrUpdateDomainRecord remoteAllOk 0 (gs "example.com") 1
        { sampleRecord with id := [] }).2 =
      [RemoteCall.create 1
        (createOpts (gs "example.com") { sampleRecord with id := [] })] ∧
    (createOrUpdateDomainRecord remoteAllOk 0 (gs "example.com") 1
        sampleRecord).2 =
      [RemoteCall.update 1 7 (updateOpts (gs "example.com") sampleRecord)] ∧
    createOrUpdateDomainRecord remoteAllOk 0 (gs "example.com") 1
        { sampleRecord with id := gs "abc" } =
      (Except.error invalidRecordIDErr, []) :=
  ⟨(setRecords_id_dispatch remoteAllOk 0 (gs "example.com") 1
      { sampleRecord with id := [] }).1 rfl,
   (setRecords_id_dispatch remoteAllOk 0 (gs "example.com") 1
      sampleRecord).2.1 7 (by decide),
   (setRecords_id_dispatch remoteAllOk 0 (gs "example.com") 1
      { sampleRecord with id := gs "abc" }).2.2 (by decide) (by decide)⟩

/-- The shared loop is blind to a record rewrite the step is blind to. -/
theorem batchLoop_congr_of_step
    (step : Nat → Record → Except String Record × List RemoteCall)
    (f : Record → Record) (hstep : ∀ i r, step i (f r) = step i r) :
    ∀ i records, batchLoop step i (records.map f) = batchLoop step i records := by
  intro i records
  induction records generalizing i with
  | nil => rfl
  | cons r rs ih =>
      simp only [List.map_cons, batchLoop, hstep, ih]

/-- Claim C5: the create options depend only on the Type, Name, Value and
TTL of the input record (the shape carries no ID field at all), and
replacing the ID of every input record changes nothing about an
AppendRecords run: same calls, same error, same returned records. -/
theorem appendRecords_ignores_input_id (remote : Remote) (zone : GoString)
    (records : List Record) (newId : GoString) :
    (∀ r r' : Record, r.type = r'.type → r.name = r'.name →
      r.value = r'.value → r.ttl = r'.ttl →
      createOpts zone r = createOpts zone r') ∧
    AppendRecords remote zone (records.map (fun r => { r with id := newId })) =
      AppendRecords remote zone records := by
  constructor
  · intro r r' h1 h2 h3 h4
    unfold createOpts
    rw [h1, h2, h3, h4]
  · unfold AppendRecords
    cases hdom : getDomainIDByZoneFiltered zone remote.domains with
    | none => rfl
    | some domainID =>
        have hstep : ∀ i r,
            createDomainRecordStep remote i zone domainID
              { r with id := newId } =
            createDomainRecordStep remote i zone domainID r := by
          intro i r
          unfold createDomainRecordStep
          cases remote.createResp i <;> rfl
        simp only []
        rw [batchLoop_congr_of_step
          (fun i r => createDomainRecordStep remote i zone domainID r)
          (fun r => { r with id := newId }) hstep 0 records]

/-- Witness for claim C5: equal create options for two records agreeing on
Type, Name, Value and TTL but differing in ID, and ID-blindness of a
concrete AppendRecords run. -/
theorem appendRecords_ignores_input_id_witness :
    createOpts (gs "example.com") sampleRecord =
      createOpts (gs "example.com") { sampleRecord with id := gs "999" } ∧
    AppendRecords remoteAllOk (gs "example.com")
        ([sampleRecord].map (fun r => { r with id := gs "999" })) =
      AppendRecords remoteAllOk (gs "example.com") [sampleRecord] :=
  ⟨(appendRecords_ignores_input_id remoteAllOk (gs "example.com")
      [sampleRecord] (gs "999")).1 sampleRecord _ rfl rfl rfl rfl,
   (appendRecords_ignores_input_id remoteAllOk (gs "example.com")
      [sampleRecord] (gs "999")).2⟩

/-- Claim C6: round trip.  For a remote record whose stored name is
already relative to the zone (a fixpoint of RelativeName for that zone),
decoding it to the generic shape and re-encoding the result as update
options preserves Type, relative Name, Target and whole-second TTL
exactly. -/
theorem remote_roundTrip_preserves_fields (zone : GoString)
    (rr : DomainRecord) (hrel : RelativeName rr.name zone = rr.name) :
    updateOpts zone (convertToLibdns zone rr) =
      { type := rr.type, name := rr.name, target := rr.target,
        ttlSec := rr.ttlSec } := by
  unfold updateOpts convertToLibdns mergeWithExistingLibdns
  simp only [Option.getD]
  unfold goDurationSeconds
  rw [Int.mul_tdiv_cancel _ (by norm_num [nsPerSecond])]
  rw [hrel, hrel]

/-- Witness for claim C6 at a concrete remote TXT record relative to
"example.com". -/
theorem remote_roundTrip_witness :
    updateOpts (gs "example.com")
        (convertToLibdns (gs "example.com")
          { id := 11, type := gs "TXT", name := gs "_acme-challenge",
            target := gs "abc123", ttlSec := 300 }) =
      { type := gs "TXT", name := gs "_acme-challenge",
        target := gs "abc123", ttlSec := 300 } :=
  remote_roundTrip_preserves_fields (gs "example.com")
    { id := 11, type := gs "TXT", name := gs "_acme-challenge",
      target := gs "abc123", ttlSec := 300 } (by decide)

/-- Claim C7: fail-fast for the three batch operations.  With the zone
resolving to some domain, when every per-record step before position k
succeeds and the step at position k fails with e, the operation returns
that error together with the Go nil slice (it reports no processed element) and its
call trace covers exactly the records up to and including position k, so
no remote call is attempted for any later record. -/
theorem batch_failFast (remote : Remote) (zone : GoString)
    (records : List Record) (domainID : Int) (k : Nat) (e : String)
    (hdom : getDomainIDByZoneFiltered zone remote.domains = some domainID)
    (hk : k < records.length) :
    ((∀ i, i < k → stepOk (createDomainRecordStep remote i zone domainID
        (records.getD i emptyRecord)) = true) →
      (createDomainRecordStep remote k zone domainID
        (records.getD k emptyRecord)).1 = Except.error e →
      AppendRecords remote zone records =
        { records := [], err := some e,
          calls := callsFor
            (fun i r => createDomainRecordStep remote i zone domainID r)
            0 (records.take (k + 1)) }) ∧
    ((∀ i, i < k → stepOk (createOrUpdateDomainRecord remote i zone domainID
        (records.getD i emptyRecord)) = true) →
      (createOrUpdateDomainRecord remote k zone domainID
        (records.getD k emptyRecord)).1 = Except.error e →
      SetRecords remote zone records =
        { records := [], err := some e,
          calls := callsFor
            (fun i r => createOrUpdateDomainRecord remote i zone domainID r)
            0 (records.take (k + 1)) }) ∧
    ((∀ i, i < k → stepOk (deleteDomainRecordStep remote i domainID
        (records.getD i emptyRecord)) = true) →
      (deleteDomainRecordStep remote k domainID
        (records.getD k emptyRecord)).1 = Except.error e →
      DeleteRecords remote zone records =
        { records := [], err := some e,
          calls := callsFor
            (fun i r => deleteDomainRecordStep remote i domainID r)
            0 (records.take (k + 1)) }) := by
  refine ⟨?_, ?_, ?_⟩ <;> intro hsucc hfail
  · have hloop := batchLoop_failFast
      (fun i r => createDomainRecordStep remote i zone domainID r)
      records k 0 e hk (by intro i hi; simpa using hsucc i hi)
      (by simpa using hfail)
    simp [AppendRecords, hdom, hloop]
  · have hloop := batchLoop_failFast
      (fun i r => createOrUpdateDomainRecord remote i zone domainID r)
      records k 0 e hk (by intro i hi; simpa using hsucc i hi)
      (by simpa using hfail)
    simp [SetRecords, hdom, hloop]
  · have hloop := batchLoop_failFast
      (fun i r => deleteDomainRecordStep remote i domainID r)
      records k 0 e hk (by intro i hi; simpa using hsucc i hi)
      (by simpa using hfail)
    simp [DeleteRecords, hdom, hloop]

/-- Witness for claim C7: a one-record batch against a remote whose calls
all fail at index 0. -/
theorem batch_failFast_witness :
    AppendRecords remoteAllFail (gs "example.com") [sampleRecord] =
      { records := [], err := some "boom",
        calls := callsFor
          (fun i r => createDomainRecordStep remoteAllFail i (gs "example.com") 1 r)
          0 ([sampleRecord].take 1) } ∧
    SetRecords remoteAllFail (gs "example.com") [sampleRecord] =
      { records := [], err := some "boom",
        calls := callsFor
          (fun i r => createOrUpdateDomainRecord remoteAllFail i (gs "example.com") 1 r)
          0 ([sampleRecord].take 1) } ∧
    DeleteRecords remoteAllFail (gs "example.com") [sampleRecord] =
      { records := [], err := some "boom",
        calls := callsFor
          (fun i r => deleteDomainRecordStep remoteAllFail i 1 r)
          0 ([sampleRecord].take 1) } := by
  have h := batch_failFast remoteAllFail (gs "example.com") [sampleRecord]
    1 0 "boom" (by decide) (by decide)
  exact ⟨h.1 (fun i hi => absurd hi (Nat.not_lt_zero i)) rfl,
    (h.2.1 (fun i hi => absurd hi (Nat.not_lt_zero i)) rfl),
    (h.2.2 (fun i hi => absurd hi (Nat.not_lt_zero i)) rfl)⟩

/-- A remote whose table holds only other.com, so that no domain matches
the zone missing.com. -/
def remoteOther : Remote :=
  { domains := [{ id := 1, domain := gs "other.com" }]
    createResp := fun _ => Except.ok sampleDomainRecord
    updateResp := fun _ => Except.ok sampleDomainRecord
    deleteResp := fun _ => none
    listResp := Except.ok [] }

/-- Claim C8: when no domain of the remote table matches the lookup key of
the zone, domain resolution fails first: every public operation returns
the zone-lookup error wrapping domain-not-found and issues no record-level
remote call at all. -/
theorem resolution_failure_no_record_calls (remote : Remote)
    (zone : GoString)
    (h : ∀ d ∈ remote.domains, d.domain ≠ AbsoluteName zone []) :
    GetRecords remote zone =
      { records := [], err := some zoneLookupErr, calls := [] } ∧
    ∀ records : List Record,
      AppendRecords remote zone records =
        { records := [], err := some zoneLookupErr, calls := [] } ∧
      SetRecords remote zone records =
        { records := [], err := some zoneLookupErr, calls := [] } ∧
      DeleteRecords remote zone records =
        { records := [], err := some zoneLookupErr, calls := [] } := by
  have hnone := getDomainIDByZoneFiltered_eq_none zone remote.domains h
  refine ⟨?_, fun records => ⟨?_, ?_, ?_⟩⟩
  · simp [GetRecords, hnone]
  · simp [AppendRecords, hnone]
  · simp [SetRecords, hnone]
  · simp [DeleteRecords, hnone]

/-- Witness for claim C8: the zone missing.com against a table holding
only other.com. -/
theorem resolution_failure_witness :
    GetRecords remoteOther (gs "missing.com") =
      { records := [], err := some zoneLookupErr, calls := [] } ∧
    AppendRecords remoteOther (gs "missing.com") [sampleRecord] =
      { records := [], err := some zoneLookupErr, calls := [] } ∧
    SetRecords remoteOther (gs "missing.com") [sampleRecord] =
      { records := [], err := some zoneLookupErr, calls := [] } ∧
    DeleteRecords remoteOther (gs "missing.com") [sampleRecord] =
      { records := [], err := some zoneLookupErr, calls := [] } := by
  have h := resolution_failure_no_record_calls remoteOther (gs "missing.com")
    (by decide)
  exact ⟨h.1, h.2 [sampleRecord]⟩

/-- Claim C9: the generic-to-remote translation sends TTLSec equal to the
TTL duration truncated to whole seconds, the remote-to-generic translation
sets TTL to exactly TTLSec whole seconds, a TTL of 1.5 seconds is sent as
1, and any nonnegative duration under one second is sent as 0. -/
theorem ttl_translation_truncates :
    (∀ (zone : GoString) (r : Record),
      (createOpts zone r).ttlSec = goDurationSeconds r.ttl ∧
      (updateOpts zone r).ttlSec = goDurationSeconds r.ttl) ∧
    (∀ (zone : GoString) (ex : Option Record) (rr : DomainRecord),
      (mergeWithExistingLibdns zone ex rr).ttl = rr.ttlSec * nsPerSecond) ∧
    goDurationSeconds 1500000000 = 1 ∧
    (∀ t : Int, 0 ≤ t → t < nsPerSecond → goDurationSeconds t = 0) := by
  refine ⟨fun zone r => ⟨rfl, rfl⟩, fun zone ex rr => rfl, by decide, ?_⟩
  intro t h0 h1
  unfold goDurationSeconds nsPerSecond at *
  rw [Int.tdiv_eq_ediv h0 (by norm_num)]
  exact Int.ediv_eq_zero_of_lt h0 h1

/-- Witness for claim C9: the TTL mapping at the sample record, and the
truncation of a half second to 0. -/
theorem ttl_translation_witness :
    (createOpts (gs "example.com") sampleRecord).ttlSec =
      goDurationSeconds sampleRecord.ttl ∧
    goDurationSeconds 500000000 = 0 :=
  ⟨(ttl_translation_truncates.1 (gs "example.com") sampleRecord).1,
    ttl_translation_truncates.2.2.2 500000000 (by decide) (by decide)⟩

/-- Claim C10: mergeWithExistingLibdns overwrites exactly the five mapped
fields — ID, Type, Name, Value, TTL — with the values decoded from the
remote record, and preserves every other field of the existing generic
record: Priority, the only other field of the libdns v0.2.1 Record, keeps
the value of the existing record. -/
theorem merge_overwrites_exactly_mapped_fields (zone : GoString)
    (g : Record) (rr : DomainRecord) :
    mergeWithExistingLibdns zone (some g) rr =
      { id := Itoa rr.id, type := rr.type,
        name := RelativeName rr.name zone, value := rr.target,
        ttl := rr.ttlSec * nsPerSecond, priority := g.priority } := rfl

end LinodeSpec
